import Mathlib

/-!
Shallow embedding of `scripts/check_power.py` (moeleak/power-monitor).

Conventions of the embedding:
* Python `str` is Lean `String`; per-character work is done on `String.toList`.
* Python `None` is `Option.none`; fallible operations return `Option`/`Except`.
* Python floats are modelled as exact rationals (`ℚ`); the decimal literals the
  script ever parses are exactly representable.
* The process environment is a map `String → Option String`; YAML config data
  is the inductive `PyValue` (string / nested mapping / Python None / other).
* IO boundaries (HTTP fetch, DOM parsing, the clock, stdout/stderr/files) are
  modelled as explicit inputs (an `Except` outcome, an `Int` clock reading) and
  explicit outputs (a list of `Effect`s).
-/

namespace PowerMonitor

/-- `DEFAULT_BASE_URL` constant of the script. -/
def DEFAULT_BASE_URL : String := "https://www.wap.ekm365.com/nat/pay.aspx"

/-- `DEFAULT_MID` constant of the script. -/
def DEFAULT_MID : String := "20710001759"

/-- `DEFAULT_URL = f"{DEFAULT_BASE_URL}?mid={DEFAULT_MID}"`. -/
def DEFAULT_URL : String := DEFAULT_BASE_URL ++ "?mid=" ++ DEFAULT_MID

/-- The fixed missing-field error message of `collect_report`. -/
def missingFieldError : String := "页面中缺少“剩余电量”字段"

/-- Model of a value coming out of the YAML config: a string, a nested
mapping, Python `None`, or some other (non-string, non-dict) value. -/
inductive PyValue where
  | pyNone : PyValue
  | str : String → PyValue
  | dict : List (String × PyValue) → PyValue
  | other : PyValue

/-- The process environment: `os.getenv`. -/
abbrev EnvMap := String → Option String

/-- Python truthiness of an `Optional[str]`: `None` and `""` are falsy. -/
def pyTruthy : Option String → Bool
  | none => false
  | some s => s != ""

/-- Python `a or d` for `a : Optional[str]` and a string default `d`. -/
def pyOrStr (a : Option String) (d : String) : String :=
  match a with
  | none => d
  | some s => if s == "" then d else s

/-- Python `a or b` for two `Optional[str]` values. -/
def pyOrOpt (a b : Option String) : Option String :=
  if pyTruthy a then a else b

/-- Whitespace in the sense of Python `str.strip()` / `str.split()`
(ASCII whitespace plus the common Unicode spaces that can occur here). -/
def pyIsSpace (c : Char) : Bool :=
  c == ' ' || c == '\t' || c == '\n' || c == '\r' ||
  c == '\x0b' || c == '\x0c' || c == ' ' || c == '　'

/-- Python `str.strip()`: drop leading and trailing whitespace. -/
def pyStrip (s : String) : String :=
  String.mk (((s.toList.dropWhile pyIsSpace).reverse.dropWhile pyIsSpace).reverse)

/-- `lookup(config, *keys)`: walk nested dict keys, Python `None` when a step
is missing or the current value is not a mapping. -/
def lookup (config : PyValue) (keys : List String) : PyValue :=
  keys.foldl
    (fun current key =>
      match current with
      | PyValue.dict entries =>
          match entries.find? (fun e => e.1 == key) with
          | some e => e.2
          | none => PyValue.pyNone
      | _ => PyValue.pyNone)
    config

/-- Python `base.rstrip("?")` on a character list: drop trailing `?`. -/
def rstripQ (cs : List Char) : List Char :=
  (cs.reverse.dropWhile (fun c => c == '?')).reverse

/-- `url_from_mid(mid, base_url)`: `base = (base_url or DEFAULT_BASE_URL).rstrip("?")`,
then join `mid=<mid>` with `&` if `base` contains `?`, else with `?`. -/
def url_from_mid (mid : String) (base_url : Option String) : String :=
  let base := String.mk (rstripQ (pyOrStr base_url DEFAULT_BASE_URL).toList)
  let separator := if base.toList.contains '?' then "&" else "?"
  base ++ separator ++ "mid=" ++ mid

/-- `env_string(name)`: `os.getenv`, strip, empty becomes `None`. -/
def env_string (env : EnvMap) (name : String) : Option String :=
  match env name with
  | none => none
  | some v =>
      let stripped := pyStrip v
      if stripped == "" then none else some stripped

/-- A character allowed in a `${NAME}` placeholder name: `[A-Z0-9_]`. -/
def placeholderChar (c : Char) : Bool :=
  ('A' ≤ c && c ≤ 'Z') || c.isDigit || c == '_'

/-- Model of `PLACEHOLDER_PATTERN.match`, the anchored regex matching the
whole string against dollar, open brace, one or more `[A-Z0-9_]` characters,
close brace; returns the captured name. -/
def placeholderMatch (s : String) : Option String :=
  match s.toList with
  | '$' :: '\x7b' :: rest =>
      let name := rest.takeWhile placeholderChar
      let tail := rest.dropWhile placeholderChar
      if !name.isEmpty && tail == ['\x7d'] then some (String.mk name) else none
  | _ => none

/-- `resolve_string(value)`: non-strings and blank strings resolve to `None`;
a `${NAME}` placeholder resolves through the environment; any other string
resolves to its stripped self. -/
def resolve_string (env : EnvMap) (value : PyValue) : Option String :=
  match value with
  | PyValue.str s =>
      let stripped := pyStrip s
      if stripped == "" then none
      else
        match placeholderMatch stripped with
        | some name => env_string env name
        | none => some stripped
  | _ => none

/-- `config_string(config, *keys) = resolve_string(lookup(config, *keys))`. -/
def config_string (config : PyValue) (env : EnvMap) (keys : List String) : Option String :=
  resolve_string env (lookup config keys)

/-- `first_non_none(*values)`: first truthy value, else `None`. -/
def first_non_none : List (Option String) → Option String
  | [] => none
  | v :: rest => if pyTruthy v then v else first_non_none rest

/-- `resolve_url(cli_url, config)`: CLI override, then `POWER_MONITOR_URL`,
then config `url`/`meter.url`, then composition from a meter id and base url,
then `DEFAULT_URL`. -/
def resolve_url (cli_url : Option String) (config : PyValue) (env : EnvMap) : String :=
  if pyTruthy cli_url then cli_url.getD "" else
  let env_url := env_string env "POWER_MONITOR_URL"
  if pyTruthy env_url then env_url.getD "" else
  let config_url := first_non_none
    [config_string config env ["url"], config_string config env ["meter", "url"]]
  if pyTruthy config_url then config_url.getD "" else
  let mid := pyOrOpt (env_string env "POWER_MONITOR_MID")
    (first_non_none [config_string config env ["mid"], config_string config env ["meter", "mid"]])
  let base := pyOrOpt (env_string env "POWER_MONITOR_BASE_URL")
    (first_non_none [config_string config env ["base_url"], config_string config env ["meter", "base_url"]])
  if pyTruthy mid then url_from_mid (mid.getD "") base else
  DEFAULT_URL

/-- `normalize_label` at character level: map the fullwidth colon to an ASCII
colon, delete all whitespace (the `split`/`join` step), delete all colons. -/
def normChars (text : String) : List Char :=
  ((text.toList.map (fun c => if c = '：' then ':' else c)).filter
    (fun c => !pyIsSpace c)).filter (fun c => c != ':')

/-- `normalize_label(text) = "".join(text.replace(fullwidth-colon, ":").split()).replace(":", "")`. -/
def normalize_label (text : String) : String :=
  String.mk (normChars text)

/-- Numeric value of a digit list, most significant first. -/
def digitsToNat (cs : List Char) : Nat :=
  cs.foldl (fun a c => a * 10 + (c.toNat - 48)) 0

/-- Value of a digit list read as a fraction placed after the decimal point. -/
def fracToRat (cs : List Char) : ℚ :=
  cs.foldr (fun c a => (((c.toNat - 48 : ℕ) : ℚ) + a) / 10) 0

/-- Syntactic part of the model of Python `float(s)` on finite decimal
literals: optional surrounding whitespace, optional sign, digits with an
optional decimal point (at least one digit overall), optional decimal
exponent. Returns the sign, the integer digits, the fraction digits and the
exponent, or `none` exactly when Python raises `ValueError`. The special
values `inf`/`nan` and underscore digit separators are outside the model. -/
def pyFloatParse (s : String) : Option (Int × List Char × List Char × Int) :=
  let cs0 := (pyStrip s).toList
  let signAndRest : Int × List Char :=
    match cs0 with
    | '+' :: r => (1, r)
    | '-' :: r => (-1, r)
    | r => (1, r)
  let sg := signAndRest.1
  let cs := signAndRest.2
  let mantAndExp : List Char × Option (List Char) :=
    match cs.span (fun c => c != 'e' && c != 'E') with
    | (m, []) => (m, none)
    | (m, _ :: r) => (m, some r)
  let mant := mantAndExp.1
  let ipfp : Option (List Char × List Char) :=
    match mant.span (fun c => c != '.') with
    | (ip, []) =>
        if !ip.isEmpty && ip.all Char.isDigit then some (ip, []) else none
    | (ip, _ :: fp) =>
        if (!ip.isEmpty || !fp.isEmpty) && ip.all Char.isDigit && fp.all Char.isDigit then
          some (ip, fp)
        else none
  let expVal : Option Int :=
    match mantAndExp.2 with
    | none => some 0
    | some ecs0 =>
        let esignAndRest : Int × List Char :=
          match ecs0 with
          | '+' :: r => (1, r)
          | '-' :: r => (-1, r)
          | r => (1, r)
        let ecs := esignAndRest.2
        if !ecs.isEmpty && ecs.all Char.isDigit then
          some (esignAndRest.1 * (digitsToNat ecs : Int))
        else none
  match ipfp, expVal with
  | some (ip, fp), some e => some (sg, ip, fp, e)
  | _, _ => none

/-- Numeric value of a parsed decimal literal, as an exact rational. -/
def pyFloatValue : Int × List Char × List Char × Int → ℚ
  | (sg, ip, fp, e) =>
      let m := ((digitsToNat ip : ℕ) : ℚ) + fracToRat fp
      if 0 ≤ e then (sg : ℚ) * m * (10 : ℚ) ^ e.toNat
      else (sg : ℚ) * m / (10 : ℚ) ^ (-e).toNat

/-- Model of Python `float(s)`: parse the literal, value it exactly. -/
def pyFloat? (s : String) : Option ℚ :=
  (pyFloatParse s).map pyFloatValue

/-- Python `value.replace(",", "")`: delete every comma. -/
def stripCommas (s : String) : String :=
  String.mk (s.toList.filter (fun c => c != ','))

/-- `parse_numeric(value)`: `None` stays `None`; otherwise strip commas and
parse as a float, swallowing the parse failure into `None`. -/
def parse_numeric (value : Option String) : Option ℚ :=
  match value with
  | none => none
  | some s => pyFloat? (stripCommas s)

/-- Kind of a text-bearing element of the fetched document: the script only
distinguishes label-candidate elements (HTML `span`), value-holder elements
(HTML `label`), and everything else. -/
inductive NodeKind where
  | span : NodeKind
  | label : NodeKind
  | other : NodeKind
deriving DecidableEq, BEq

/-- A text-bearing element of the document, in flattened document order;
`text` is the element's `get_text(strip=True)`. -/
structure Node where
  kind : NodeKind
  text : String
deriving DecidableEq

/-- `span.find_next("label")`: the first value-holder element among the
elements following the matched element in document order. -/
def findNextLabel (rest : List Node) : Option Node :=
  rest.find? (fun n => n.kind == NodeKind.label)

/-- The loop condition of `find_value`: a `span` with non-empty text whose
normalized text starts with the (already normalized) target token. -/
def matchesTarget (target : List Char) (n : Node) : Bool :=
  n.kind == NodeKind.span && n.text != "" && target.isPrefixOf (normChars n.text)

/-- The matching relation of `find_value` stated against the raw keyword. -/
def labelMatches (keyword : String) (n : Node) : Bool :=
  matchesTarget (normChars keyword) n

/-- The scan loop of `find_value` over the remaining document. -/
def findValueGo (target : List Char) : List Node → Option String
  | [] => none
  | n :: rest =>
      if matchesTarget target n then
        match findNextLabel rest with
        | some l => some l.text
        | none => findValueGo target rest
      else findValueGo target rest

/-- `find_value(soup, keyword)`: normalize the keyword, scan the `span`
elements in document order, and return the text of the next `label` after the
matching one. -/
def find_value (doc : List Node) (keyword : String) : Option String :=
  findValueGo (normChars keyword) doc

/-- A timezone-aware clock reading: the instant (model of "now") together
with the fixed utcoffset, in hours, of the attached `tzinfo`. -/
structure Datetime where
  instant : Int
  tzOffsetHours : Int
deriving DecidableEq

/-- The `PowerInfo` dataclass; floats are modelled as exact rationals. -/
structure PowerInfo where
  meter_name : Option String := none
  meter_id : Option String := none
  remaining_kwh : Option ℚ := none
  remaining_amount_cny : Option ℚ := none
  price_per_kwh : Option ℚ := none
deriving DecidableEq

/-- `PowerInfo()` with every field defaulted. -/
def emptyPowerInfo : PowerInfo := {}

/-- The `PowerReport` dataclass. -/
structure PowerReport where
  url : String
  fetched_at : Datetime
  info : PowerInfo
  snippet : String
  success : Bool
  error : Option String := none
deriving DecidableEq

/-- `collect_report(url)` after the fetch and extraction already happened:
given the extracted `PowerInfo` and snippet, set `success` from the presence
of `remaining_kwh`, attach the fixed missing-field message when it is absent,
and stamp `fetched_at` with the clock in the fixed UTC+8 timezone.
(`fetch_page` and the HTML parse are IO black boxes; an exception anywhere in
them is modelled by the `Except.error` case of `runReport`.) -/
def collect_report (url : String) (now : Int) (info : PowerInfo) (snippet : String) :
    PowerReport :=
  let success := info.remaining_kwh.isSome
  let error := if success then none else some missingFieldError
  { url := url
    fetched_at := { instant := now, tzOffsetHours := 8 }
    info := info
    snippet := snippet
    success := success
    error := error }

/-- The report produced by one run of `main`: either `collect_report`'s
result, or — when fetch/extraction raised, carried here as `Except.error`
with the exception's message text — the synthesized failure report with empty
info, empty snippet, and a UTC timestamp. -/
def runReport (url : String) (now : Int)
    (outcome : Except String (PowerInfo × String)) : PowerReport :=
  match outcome with
  | Except.ok (info, snippet) => collect_report url now info snippet
  | Except.error msg =>
      { url := url
        fetched_at := { instant := now, tzOffsetHours := 0 }
        info := emptyPowerInfo
        snippet := ""
        success := false
        error := some msg }

/-- An observable effect of the driver: writing the rendered report to the
chosen output sink (`None` = stdout, `some path` = that file), or printing a
line to stderr. -/
inductive Effect where
  | writeOut : Option String → String → Effect
  | errLine : String → Effect
deriving DecidableEq

/-- The tail of `main` plus the `__main__` guard, as an ordered effect list
and an exit flag (`true` = exit code zero). `render` abstracts the selected
renderer (`render_markdown`/`render_json`); no claim constrains the rendered
text itself. On failure, `main` raises `PowerMonitorError(report.error or
"Power monitor failed")` after writing the output, and the `__main__` guard
prints `Error: ...` to stderr and re-raises, so the process exits non-zero. -/
def mainEffects (render : PowerReport → String) (dest : Option String)
    (url : String) (now : Int) (outcome : Except String (PowerInfo × String)) :
    List Effect × Bool :=
  let report := runReport url now outcome
  let output := render report
  if report.success then
    ([Effect.writeOut dest output], true)
  else
    ([Effect.writeOut dest output,
      Effect.errLine ("Error: " ++ pyOrStr report.error "Power monitor failed")], false)

/-- Reading of the C3 claim text as stated: the hardcoded default base is
substituted only when the base argument is absent (`none`); a present base
string, even the empty one, is used as given. -/
def urlFromMidClaim (mid : String) (base_url : Option String) : String :=
  let base := String.mk (rstripQ (match base_url with
    | some b => b
    | none => DEFAULT_BASE_URL).toList)
  let separator := if base.toList.contains '?' then "&" else "?"
  base ++ separator ++ "mid=" ++ mid

/-- Amended reading of C3: the hardcoded default base is substituted when the
base argument is absent or empty (Python truthiness of
`base_url or DEFAULT_BASE_URL`). -/
def urlFromMidAmended (mid : String) (base_url : Option String) : String :=
  let base := String.mk (rstripQ (match base_url with
    | some b => if b == "" then DEFAULT_BASE_URL else b
    | none => DEFAULT_BASE_URL).toList)
  let separator := if base.toList.contains '?' then "&" else "?"
  base ++ separator ++ "mid=" ++ mid

/-- The characters of a label that survive deleting whitespace and both colon
forms; two labels "differ only in colon form and whitespace" exactly when
their cores agree. -/
def labelCore (s : String) : List Char :=
  s.toList.filter (fun c => !pyIsSpace c && c != ':' && c != '：')

/-!  Helper lemmas. -/

theorem env_string_some_ne {env : EnvMap} {n s : String}
    (h : env_string env n = some s) : s ≠ "" := by
  unfold env_string at h
  split at h
  · exact absurd h (by simp)
  · dsimp only at h
    split at h
    · exact absurd h (by simp)
    · next hne =>
        cases h
        simpa using hne

theorem resolve_string_some_ne {env : EnvMap} {v : PyValue} {s : String}
    (h : resolve_string env v = some s) : s ≠ "" := by
  unfold resolve_string at h
  split at h
  · dsimp only at h
    split at h
    · exact absurd h (by simp)
    · next hne =>
        split at h
        · exact env_string_some_ne h
        · cases h
          simpa using hne
  · exact absurd h (by simp)

theorem config_string_some_ne {config : PyValue} {env : EnvMap} {keys : List String}
    {s : String} (h : config_string config env keys = some s) : s ≠ "" :=
  resolve_string_some_ne h

theorem first_non_none_some_ne : ∀ {l : List (Option String)} {s : String},
    first_non_none l = some s → s ≠ "" := by
  intro l
  induction l with
  | nil => intro s h; exact absurd h (by simp [first_non_none])
  | cons v rest ih =>
      intro s h
      unfold first_non_none at h
      split at h
      · next ht =>
          cases v with
          | none => simp [pyTruthy] at ht
          | some u => cases h; simpa [pyTruthy] using ht
      · exact ih h

theorem url_from_mid_ne_empty (mid : String) (base_url : Option String) :
    url_from_mid mid base_url ≠ "" := by
  intro h
  have hd := congrArg String.data h
  simp only [url_from_mid, String.data_append] at hd
  rcases List.append_eq_nil.mp hd with ⟨hd', -⟩
  rcases List.append_eq_nil.mp hd' with ⟨hd'', -⟩
  rcases List.append_eq_nil.mp hd'' with ⟨-, hsep⟩
  revert hsep
  split <;> decide

theorem pyOrOpt_eq_some {a b : Option String} {s : String}
    (h : pyOrOpt a b = some s) : a = some s ∨ b = some s := by
  unfold pyOrOpt at h
  split at h
  · exact Or.inl h
  · exact Or.inr h

theorem resolve_url_ne_empty (cli : Option String) (config : PyValue) (env : EnvMap) :
    resolve_url cli config env ≠ "" := by
  simp only [resolve_url]
  split
  · next h1 =>
      cases cli with
      | none => simp [pyTruthy] at h1
      | some s => simpa [pyTruthy] using h1
  · split
    · next h2 =>
        cases henv : env_string env "POWER_MONITOR_URL" with
        | none => rw [henv] at h2; simp [pyTruthy] at h2
        | some u => simpa using env_string_some_ne henv
    · split
      · next h3 =>
          cases hcfg : first_non_none
              [config_string config env ["url"], config_string config env ["meter", "url"]] with
          | none => rw [hcfg] at h3; simp [pyTruthy] at h3
          | some u => simpa using first_non_none_some_ne hcfg
      · split
        · exact url_from_mid_ne_empty _ _
        · decide

/-!  C10. -/

/-- C10: `env_string`, `resolve_string` and `config_string` return either
`none` or a non-empty trimmed string, so over their outputs Python truthiness
coincides with presence, `first_non_none` is the plain first-present choice,
and the resolved URL is always non-empty. -/
theorem C10_nonempty_values :
    (∀ (env : EnvMap) (n s : String), env_string env n = some s → s ≠ "")
    ∧ (∀ (env : EnvMap) (v : PyValue) (s : String), resolve_string env v = some s → s ≠ "")
    ∧ (∀ (config : PyValue) (env : EnvMap) (keys : List String) (s : String),
        config_string config env keys = some s → s ≠ "")
    ∧ (∀ o : Option String, (∀ s, o = some s → s ≠ "") → pyTruthy o = o.isSome)
    ∧ (∀ l : List (Option String), (∀ o ∈ l, ∀ s, o = some s → s ≠ "") →
        first_non_none l = l.findSome? id)
    ∧ (∀ (cli : Option String) (config : PyValue) (env : EnvMap),
        resolve_url cli config env ≠ "") := by
  have htruthy : ∀ o : Option String, (∀ s, o = some s → s ≠ "") → pyTruthy o = o.isSome := by
    intro o h
    cases o with
    | none => rfl
    | some s => simp [pyTruthy, h s rfl]
  refine ⟨fun _ _ _ h => env_string_some_ne h,
          fun _ _ _ h => resolve_string_some_ne h,
          fun _ _ _ _ h => config_string_some_ne h,
          htruthy, ?_, ?_⟩
  · intro l hl
    induction l with
    | nil => rfl
    | cons v rest ih =>
        have hv := htruthy v (hl v (by simp))
        cases v with
        | none =>
            simpa [first_non_none, pyTruthy, List.findSome?] using
              ih (fun o ho => hl o (by simp [ho]))
        | some s =>
            simp [first_non_none, List.findSome?] at hv ⊢
            simp [hv]
  · exact resolve_url_ne_empty

theorem C10_nonempty_values_witness :
    pyTruthy (some "abc") = (some "abc" : Option String).isSome :=
  C10_nonempty_values.2.2.2.1 (some "abc")
    (by intro s hs; cases hs; decide)

/-!  C3. -/

/-- C3 counterexample: at `mid = "X"`, `base = some ""` the code substitutes
the hardcoded default base although a base string is present, so the claim's
"default base only when the base is absent" description fails. -/
theorem C3_url_from_mid_counterexample :
    url_from_mid "X" (some "") ≠ urlFromMidClaim "X" (some "") := by decide

/-- C3 (amended): `url_from_mid` strips trailing question marks from the base
— substituting the hardcoded default base when the base is absent or empty —
and appends the mid with an ampersand when the stripped base contains a
question mark and with a question mark otherwise; including the two concrete
instances of the claim. -/
theorem C3_url_from_mid_amended :
    (∀ (mid : String) (base_url : Option String),
        url_from_mid mid base_url = urlFromMidAmended mid base_url)
    ∧ url_from_mid "20710001759" none = "https://www.wap.ekm365.com/nat/pay.aspx?mid=20710001759"
    ∧ url_from_mid "X" (some "https://h/p?a=1") = "https://h/p?a=1&mid=X" := by
  refine ⟨?_, by decide, by decide⟩
  intro mid base_url
  cases base_url with
  | none => rfl
  | some b => by_cases hb : b == "" <;> simp [url_from_mid, urlFromMidAmended, pyOrStr, hb]

/-!  C1. -/

/-- C1: in every report a run produces — `collect_report`'s on the success
path, the synthesized one on exception — `success` holds exactly when
`remaining_kwh` is present; when `success` holds `error` is absent, and when
it fails `error` is the fixed missing-field message (field simply not found)
or the caught exception's message text (hard failure). -/
theorem C1_success_error_invariant (url : String) (now : Int)
    (outcome : Except String (PowerInfo × String)) :
    ((runReport url now outcome).success
      = (runReport url now outcome).info.remaining_kwh.isSome)
    ∧ ((runReport url now outcome).success = true → (runReport url now outcome).error = none)
    ∧ ((runReport url now outcome).success = false →
        (∀ info snippet, outcome = Except.ok (info, snippet) →
          (runReport url now outcome).error = some missingFieldError)
        ∧ (∀ msg, outcome = Except.error msg →
          (runReport url now outcome).error = some msg)) := by
  cases outcome with
  | ok p =>
      obtain ⟨info, snippet⟩ := p
      by_cases h : info.remaining_kwh.isSome <;>
        simp [runReport, collect_report, h]
  | error msg => simp [runReport, emptyPowerInfo]

theorem C1_success_error_invariant_witness :
    (runReport "u" 0 (Except.error "boom")).error = some "boom" :=
  ((C1_success_error_invariant "u" 0 (Except.error "boom")).2.2 (by decide)).2 "boom" rfl

/-!  C8. -/

/-- C8: when fetch or extraction raises, the driver synthesizes a report with
empty `PowerInfo`, empty snippet, `success = false`, the exception's message
as `error`, and `fetched_at` in UTC (offset 0); the successfully built report
instead stamps `fetched_at` in the fixed UTC+8 offset timezone. -/
theorem C8_timezone_asymmetry (url : String) (now : Int) (msg : String)
    (info : PowerInfo) (snippet : String) :
    runReport url now (Except.error msg) =
      { url := url
        fetched_at := { instant := now, tzOffsetHours := 0 }
        info := { meter_name := none, meter_id := none, remaining_kwh := none,
                  remaining_amount_cny := none, price_per_kwh := none }
        snippet := ""
        success := false
        error := some msg }
    ∧ (runReport url now (Except.ok (info, snippet))).fetched_at =
      { instant := now, tzOffsetHours := 8 } :=
  ⟨rfl, rfl⟩

/-!  C9. -/

/-- C9: a failed report makes the run write the rendered report to the chosen
sink first and only then print an `Error:` line to stderr and exit non-zero;
a successful report makes it write the report and exit zero with no stderr
line. The effect list is ordered; the boolean is `true` for exit code 0. -/
theorem C9_exit_behavior (render : PowerReport → String) (dest : Option String)
    (url : String) (now : Int) (outcome : Except String (PowerInfo × String)) :
    ((runReport url now outcome).success = true →
      mainEffects render dest url now outcome =
        ([Effect.writeOut dest (render (runReport url now outcome))], true))
    ∧ ((runReport url now outcome).success = false →
      mainEffects render dest url now outcome =
        ([Effect.writeOut dest (render (runReport url now outcome)),
          Effect.errLine ("Error: " ++
            pyOrStr (runReport url now outcome).error "Power monitor failed")], false)) := by
  constructor <;> intro h <;> simp [mainEffects, h]

theorem C9_exit_behavior_witness :
    mainEffects (fun _ => "report") none "u" 0 (Except.error "boom") =
      ([Effect.writeOut none "report", Effect.errLine "Error: boom"], false) :=
  ((C9_exit_behavior (fun _ => "report") none "u" 0 (Except.error "boom")).2
    (by decide)).trans (by decide)

/-!  C2. -/

/-- C2: `resolve_url` follows the five-tier precedence, highest to lowest:
a supplied CLI url wins; with no CLI url, a present `POWER_MONITOR_URL` wins;
then the config `url`/`meter.url` chain; then composition from the meter-id
chain (`POWER_MONITOR_MID`, config `mid`, config `meter.mid`) with the
base-url chain (`POWER_MONITOR_BASE_URL`, config `base_url`, config
`meter.base_url`, default base inside `url_from_mid`); then the hardcoded
default URL. The last conjunct is the claim's concrete instance: config
`mid` holding a placeholder for `METER_ID=999` resolves to the default-base
composition for mid `999`. -/
theorem C2_resolve_url_precedence (cli : Option String) (config : PyValue) (env : EnvMap) :
    (∀ u, cli = some u → u ≠ "" → resolve_url cli config env = u)
    ∧ (cli = none → ∀ u, env_string env "POWER_MONITOR_URL" = some u →
        resolve_url cli config env = u)
    ∧ (cli = none → env_string env "POWER_MONITOR_URL" = none →
        ∀ u, first_non_none [config_string config env ["url"],
          config_string config env ["meter", "url"]] = some u →
        resolve_url cli config env = u)
    ∧ (cli = none → env_string env "POWER_MONITOR_URL" = none →
        first_non_none [config_string config env ["url"],
          config_string config env ["meter", "url"]] = none →
        ∀ m, pyOrOpt (env_string env "POWER_MONITOR_MID")
            (first_non_none [config_string config env ["mid"],
              config_string config env ["meter", "mid"]]) = some m →
        resolve_url cli config env =
          url_from_mid m (pyOrOpt (env_string env "POWER_MONITOR_BASE_URL")
            (first_non_none [config_string config env ["base_url"],
              config_string config env ["meter", "base_url"]])))
    ∧ (cli = none → env_string env "POWER_MONITOR_URL" = none →
        first_non_none [config_string config env ["url"],
          config_string config env ["meter", "url"]] = none →
        pyOrOpt (env_string env "POWER_MONITOR_MID")
          (first_non_none [config_string config env ["mid"],
            config_string config env ["meter", "mid"]]) = none →
        resolve_url cli config env = DEFAULT_URL)
    ∧ resolve_url none (PyValue.dict [("mid", PyValue.str "$\x7bMETER_ID\x7d")])
        (fun n => if n == "METER_ID" then some "999" else none) = url_from_mid "999" none := by
  refine ⟨?_, ?_, ?_, ?_, ?_, by decide⟩
  · intro u hc hu
    subst hc
    have ht : pyTruthy (some u) = true := by simp [pyTruthy, hu]
    simp [resolve_url, ht]
  · intro hc u henv
    subst hc
    simp only [resolve_url]
    rw [henv]
    simp [pyTruthy, env_string_some_ne henv]
  · intro hc henv u hcfg
    subst hc
    simp only [resolve_url]
    rw [henv, hcfg]
    simp [pyTruthy, first_non_none_some_ne hcfg]
  · intro hc henv hcfg m hmid
    subst hc
    have hm : m ≠ "" := by
      rcases pyOrOpt_eq_some hmid with h | h
      · exact env_string_some_ne h
      · exact first_non_none_some_ne h
    simp only [resolve_url]
    rw [henv, hcfg, hmid]
    simp [pyTruthy, hm]
  · intro hc henv hcfg hmid
    subst hc
    simp only [resolve_url]
    rw [henv, hcfg, hmid]
    simp [pyTruthy]

theorem C2_resolve_url_precedence_witness :
    resolve_url (some "https://cli.example/x") PyValue.other (fun _ => none) =
      "https://cli.example/x" :=
  (C2_resolve_url_precedence (some "https://cli.example/x") PyValue.other (fun _ => none)).1
    "https://cli.example/x" rfl (by decide)

/-!  C4 and its placeholder-pattern characterization. -/

theorem takeWhile_append_cons {p : Char → Bool} :
    ∀ (l : List Char), (∀ x ∈ l, p x = true) → ∀ (c : Char), p c = false → ∀ (r : List Char),
      (l ++ c :: r).takeWhile p = l ∧ (l ++ c :: r).dropWhile p = c :: r := by
  intro l hl c hc r
  induction l with
  | nil =>
      simp [List.takeWhile_cons, List.dropWhile_cons, hc]
  | cons a t ih =>
      have ha : p a = true := hl a (by simp)
      have ht : ∀ x ∈ t, p x = true := fun x hx => hl x (by simp [hx])
      obtain ⟨h1, h2⟩ := ih ht
      simp [List.takeWhile_cons, List.dropWhile_cons, ha, h1, h2]

theorem placeholderMatch_eq_some_iff {t n : String} :
    placeholderMatch t = some n ↔
      (t = "$\x7b" ++ n ++ "\x7d" ∧ n ≠ ""
        ∧ ∀ c ∈ n.toList, placeholderChar c = true) := by
  constructor
  · intro h
    unfold placeholderMatch at h
    split at h
    · next rest heq =>
        dsimp only at h
        split at h
        · next hcond =>
            obtain ⟨hne, htl⟩ := Bool.and_eq_true_iff.mp hcond
            have hne' : rest.takeWhile placeholderChar ≠ [] := by
              simpa using hne
            have htl' : rest.dropWhile placeholderChar = ['\x7d'] := by
              simpa using htl
            have hrest : rest = rest.takeWhile placeholderChar ++ ['\x7d'] := by
              conv_lhs => rw [← List.takeWhile_append_dropWhile (p := placeholderChar) (l := rest)]
              rw [htl']
            cases h
            refine ⟨?_, ?_, ?_⟩
            · apply String.ext
              simp only [String.data_append]
              have ht : t.data = '$' :: '\x7b' :: rest := heq
              rw [ht]
              conv_lhs => rw [hrest]
              simp
            · intro hbad
              exact hne' (congrArg String.data hbad)
            · intro c hcmem
              have := List.all_takeWhile (p := placeholderChar) (l := rest)
              exact List.all_eq_true.mp this c hcmem
        · exact absurd h (by simp)
    · exact absurd h (by simp)
  · rintro ⟨ht, hn, hall⟩
    have hdata : t.toList = '$' :: '\x7b' :: (n.toList ++ ['\x7d']) := by
      have : t.data = ("$\x7b" : String).data ++ n.data ++ ("\x7d" : String).data := by
        rw [ht]; simp [String.data_append]
      simpa [String.toList] using this
    have hp : placeholderChar '\x7d' = false := by decide
    obtain ⟨htw, hdw⟩ := takeWhile_append_cons n.toList
      (fun x hx => hall x hx) '\x7d' hp []
    unfold placeholderMatch
    rw [hdata]
    change (if (!(List.takeWhile placeholderChar (n.toList ++ ['\x7d'])).isEmpty
        && List.dropWhile placeholderChar (n.toList ++ ['\x7d']) == ['\x7d']) = true then
      some (String.mk (List.takeWhile placeholderChar (n.toList ++ ['\x7d']))) else none) = some n
    rw [htw, hdw]
    have hne : n.toList ≠ [] := fun hbad => hn (String.ext hbad)
    simp [hne]
    exact hne

/-- C4: `resolve_string` yields `none` on non-strings and on strings blank
after trimming; a trimmed string of the exact form dollar-brace-NAME-brace
with NAME non-empty over `[A-Z0-9_]` is resolved as the trimmed value of the
environment variable NAME (absent when unset or blank after trimming); any
other trimmed string is returned itself. -/
theorem C4_resolve_string_contract (env : EnvMap) (v : PyValue) :
    ((∀ s, v ≠ PyValue.str s) → resolve_string env v = none)
    ∧ (∀ s, v = PyValue.str s →
        (pyStrip s = "" → resolve_string env v = none)
        ∧ (∀ name, pyStrip s = "$\x7b" ++ name ++ "\x7d" → name ≠ "" →
            (∀ c ∈ name.toList, placeholderChar c = true) →
            resolve_string env v =
              (env name).bind (fun ev => if pyStrip ev = "" then none else some (pyStrip ev)))
        ∧ ((¬ ∃ name, pyStrip s = "$\x7b" ++ name ++ "\x7d" ∧ name ≠ ""
              ∧ ∀ c ∈ name.toList, placeholderChar c = true) →
            pyStrip s ≠ "" → resolve_string env v = some (pyStrip s))) := by
  constructor
  · intro h
    cases v with
    | pyNone => rfl
    | str s => exact absurd rfl (h s)
    | dict entries => rfl
    | other => rfl
  · intro s hv
    subst hv
    refine ⟨?_, ?_, ?_⟩
    · intro h
      simp [resolve_string, h]
    · intro name hpat hne hall
      have hm : placeholderMatch (pyStrip s) = some name :=
        placeholderMatch_eq_some_iff.mpr ⟨hpat, hne, hall⟩
      have hstrip : pyStrip s ≠ "" := by
        rw [hpat]
        intro hbad
        have := congrArg String.data hbad
        simp [String.data_append] at this
      have hcond : (pyStrip s == "") = false := by simpa using hstrip
      cases henv : env name with
      | none => simp [resolve_string, hcond, hm, env_string, henv]
      | some ev =>
          by_cases hev : pyStrip ev = "" <;>
            simp [resolve_string, hcond, hm, env_string, henv, hev]
    · intro hnot hne
      have hm : placeholderMatch (pyStrip s) = none := by
        cases hpm : placeholderMatch (pyStrip s) with
        | none => rfl
        | some nm =>
            obtain ⟨h1, h2, h3⟩ := placeholderMatch_eq_some_iff.mp hpm
            exact absurd ⟨nm, h1, h2, h3⟩ hnot
      simp [resolve_string, hne, hm]

theorem C4_resolve_string_contract_witness :
    resolve_string (fun n => if n == "PM_X" then some " 7 " else none)
      (PyValue.str "  $\x7bPM_X\x7d  ") = some "7" := by
  have h := ((C4_resolve_string_contract
      (fun n => if n == "PM_X" then some " 7 " else none)
      (PyValue.str "  $\x7bPM_X\x7d  ")).2 "  $\x7bPM_X\x7d  " rfl).2.1 "PM_X"
      (by decide) (by decide) (by decide)
  exact h.trans (by decide)

/-!  C7. -/

theorem normChars_eq_labelCore (s : String) : normChars s = labelCore s := by
  unfold normChars labelCore
  induction s.toList with
  | nil => rfl
  | cons c cs ih =>
      by_cases hc : c = '：'
      · subst hc
        simpa [show pyIsSpace ':' = false from rfl] using ih
      · by_cases hsp : pyIsSpace c
        · simp [hsp, hc, ih]
        · by_cases hcol : c = ':'
          · subst hcol
            simp [show pyIsSpace ':' = false from rfl, ih]
          · simp [hsp, hc, hcol, ih]

/-- C7: `normalize_label` is invariant under changing the colon form and the
whitespace of a label — two labels with the same non-space, non-colon
character core normalize identically — and in particular the claim's
concrete pair of labels normalizes identically. -/
theorem C7_normalize_label_invariance :
    (∀ s t : String, labelCore s = labelCore t → normalize_label s = normalize_label t)
    ∧ normalize_label "表 名称：" = normalize_label "表名称" := by
  constructor
  · intro s t h
    unfold normalize_label
    rw [normChars_eq_labelCore, normChars_eq_labelCore, h]
  · decide

theorem C7_normalize_label_invariance_witness :
    normalize_label "剩余 电量：" = normalize_label "剩余电量" :=
  C7_normalize_label_invariance.1 "剩余 电量：" "剩余电量" (by decide)

/-!  C5. -/

theorem findValueGo_eq_none {target : List Char} :
    ∀ {doc : List Node}, (∀ n ∈ doc, matchesTarget target n = false) →
      findValueGo target doc = none := by
  intro doc
  induction doc with
  | nil => intro _; rfl
  | cons n rest ih =>
      intro h
      have hn := h n (by simp)
      simp only [findValueGo, hn, Bool.false_eq_true, if_false]
      exact ih (fun m hm => h m (by simp [hm]))

theorem findValueGo_first {target : List Char} :
    ∀ (pre : List Node) (m : Node) (post : List Node) (l : Node),
      (∀ n ∈ pre, matchesTarget target n = false) →
      matchesTarget target m = true →
      findNextLabel post = some l →
      findValueGo target (pre ++ m :: post) = some l.text := by
  intro pre
  induction pre with
  | nil =>
      intro m post l _ hm hl
      simp [findValueGo, hm, hl]
  | cons p pre ih =>
      intro m post l hpre hm hl
      have hp := hpre p (by simp)
      simp only [List.cons_append, findValueGo, hp, Bool.false_eq_true, if_false]
      exact ih m post l (fun n hn => hpre n (by simp [hn])) hm hl

/-- C5: over the document modelled as the ordered list of its text-bearing
elements, `find_value` treats as a match any `span` element bearing text
whose normalized text starts with the normalized target token; the field's
value is the text of the next value-holder (`label`) element following the
first matching element in document order, and when no element matches the
field is absent. -/
theorem C5_find_value_first_match (doc : List Node) (keyword : String) :
    ((∀ n ∈ doc, labelMatches keyword n = false) → find_value doc keyword = none)
    ∧ (∀ (pre : List Node) (m : Node) (post : List Node) (l : Node),
        doc = pre ++ m :: post →
        labelMatches keyword m = true →
        (∀ n ∈ pre, labelMatches keyword n = false) →
        findNextLabel post = some l →
        find_value doc keyword = some l.text) := by
  constructor
  · intro h
    exact findValueGo_eq_none h
  · intro pre m post l hdoc hm hpre hl
    subst hdoc
    exact findValueGo_first pre m post l hpre hm hl

theorem C5_find_value_first_match_witness :
    find_value [⟨NodeKind.other, "x"⟩, ⟨NodeKind.span, "表名称：A"⟩,
      ⟨NodeKind.other, "y"⟩, ⟨NodeKind.label, "12"⟩] "表名称" = some "12" :=
  (C5_find_value_first_match [⟨NodeKind.other, "x"⟩, ⟨NodeKind.span, "表名称：A"⟩,
      ⟨NodeKind.other, "y"⟩, ⟨NodeKind.label, "12"⟩] "表名称").2
    [⟨NodeKind.other, "x"⟩] ⟨NodeKind.span, "表名称：A"⟩
    [⟨NodeKind.other, "y"⟩, ⟨NodeKind.label, "12"⟩] ⟨NodeKind.label, "12"⟩
    rfl (by decide) (by decide) (by decide)

/-!  C6. -/

/-- C6: `parse_numeric` is total — absent input gives absent output, comma
characters are stripped before the parse (so the result is unchanged when
the commas are already gone), a parse failure gives absent rather than an
error, and the claim's concrete instances hold: `"1,234.50"` parses to
`1234.5` and `"abc"` to absent. -/
theorem C6_parse_numeric_total :
    parse_numeric none = none
    ∧ (∀ s : String, parse_numeric (some s) = parse_numeric (some (stripCommas s)))
    ∧ parse_numeric (some "1,234.50") = some (1234.5 : ℚ)
    ∧ parse_numeric (some "abc") = none := by
  refine ⟨rfl, ?_, ?_, by decide⟩
  · intro s
    show pyFloat? (stripCommas s) = pyFloat? (stripCommas (stripCommas s))
    have : stripCommas (stripCommas s) = stripCommas s := by
      unfold stripCommas
      refine congrArg String.mk ?_
      show (s.toList.filter (fun c => c != ',')).filter (fun c => c != ',') = _
      rw [List.filter_eq_self]
      intro a ha
      exact (List.mem_filter.mp ha).2
    rw [this]
  · have h : pyFloatParse (stripCommas "1,234.50") =
        some (1, ['1', '2', '3', '4'], ['5', '0'], 0) := by decide
    show pyFloat? (stripCommas "1,234.50") = some (1234.5 : ℚ)
    rw [pyFloat?, h]
    show some (pyFloatValue (1, ['1', '2', '3', '4'], ['5', '0'], 0)) = some (1234.5 : ℚ)
    norm_num [pyFloatValue, digitsToNat, fracToRat, List.foldl, List.foldr,
      show '1'.toNat - 48 = 1 from rfl, show '2'.toNat - 48 = 2 from rfl,
      show '3'.toNat - 48 = 3 from rfl, show '4'.toNat - 48 = 4 from rfl,
      show '5'.toNat - 48 = 5 from rfl, show '0'.toNat - 48 = 0 from rfl]

end PowerMonitor
